import Mathlib

/-!
Verification of the core of the `grv` terminal viewer: the window / cell-grid
rendering engine (`window.go`) and the key-sequence resolver.

Go strings are modelled as `List Char` (Go iterates strings rune by rune).
Go `uint` values are modelled as `Nat`; at the places where the source can
wrap around below zero (unsigned subtraction in `setHeader`, `column - 1`
in tab expansion) the wrap-around is made explicit modulo `2 ^ 64`.
A Go slice access `xs[i]` is modelled as `xs[i]?`; a result of `none`
corresponds to a Go runtime panic (index out of range), so a function of
result type `Option _` returning `some _` means the Go code cannot panic
on those inputs.  A Go `error` result is modelled with `Except String`.
-/

namespace Grv

/-- Width in bits of Go's `uint` wrap-around arithmetic: values live below
`2 ^ 64`. -/
def goUintSize : Nat := 2 ^ 64

/-- Go unsigned subtraction `a - b` on `uint`, which wraps around modulo
`2 ^ 64` when `b > a`. -/
def goSub (a b : Nat) : Nat := (a + (goUintSize - b % goUintSize)) % goUintSize

/-- Theme component identifiers are opaque tokens; `CMP_NONE` is the zero
value. -/
abbrev ThemeComponentId := Nat

def CMP_NONE : ThemeComponentId := 0

/-- ncurses attribute bit for reverse video (`gc.A_REVERSE`). -/
def A_REVERSE : Nat := 2 ^ 18

/-- ncurses attribute bit for dim text (`gc.A_DIM`). -/
def A_DIM : Nat := 2 ^ 20

/-- ncurses line-drawing glyph codes; the exact numeric values are opaque,
they only need to be nonzero and distinct. -/
def ACS_ULCORNER : Nat := 1
def ACS_URCORNER : Nat := 2
def ACS_LLCORNER : Nat := 3
def ACS_LRCORNER : Nat := 4
def ACS_HLINE : Nat := 5
def ACS_VLINE : Nat := 6

/-- The configuration the rendering code reads: `config.GetInt(CV_TAB_WIDTH)`
is modelled as the single field `tabWidth`. -/
structure Config where
  tabWidth : Nat
deriving DecidableEq

/-- External Unicode collaborators used by `DetermineRenderedCodePoint`:
`unicode.IsPrint`, `runewidth.RuneWidth` and the repository helper
`nonPrintableCharString` (the latter lives outside `window.go`; every unit
it produces is rendered with width 1, which is all the code relies on). -/
structure CharMetrics where
  isPrint : Char → Bool
  runeWidth : Char → Nat
  nonPrintableCharString : Char → List Char

/-- One rendered unit: a code point together with its display width. -/
structure RenderedCodePoint where
  width : Nat
  codePoint : Char
deriving DecidableEq

structure CellStyle where
  componentId : ThemeComponentId
  attr : Nat
  acs_char : Nat
deriving DecidableEq

/-- One grid position: the code-point buffer (`bytes.Buffer` of runes) and
the style.  The Go zero value `Cell{}` has an empty buffer and zero style. -/
structure Cell where
  codePoints : List Char
  style : CellStyle
deriving DecidableEq

def emptyCell : Cell := { codePoints := [], style := { componentId := CMP_NONE, attr := 0, acs_char := 0 } }

structure Line where
  cells : List Cell
deriving DecidableEq

structure LineBuilder where
  line : Line
  cellIndex : Nat
  column : Nat
  startColumn : Nat
  config : Config
deriving DecidableEq

structure Cursor where
  row : Nat
  col : Nat
deriving DecidableEq

structure ViewDimension where
  rows : Nat
  cols : Nat
deriving DecidableEq

structure Window where
  id : String
  rows : Nat
  cols : Nat
  lines : List Line
  startRow : Nat
  startCol : Nat
  config : Config
  cursor : Option Cursor
deriving DecidableEq

/-- `NewLine` allocates `cols` zero-value cells. -/
def NewLine (cols : Nat) : Line :=
  ⟨List.replicate cols emptyCell⟩

/-- `NewLineBuilder` starts at cell index 0, column 1. -/
def NewLineBuilder (line : Line) (config : Config) (startColumn : Nat) : LineBuilder :=
  { line := line, cellIndex := 0, column := 1, startColumn := startColumn, config := config }

/-- `DetermineRenderedCodePoint`: classify one code point at the given
column.  A tab expands to spaces up to the next tab stop (Go panics by
modulo-by-zero when the configured tab width is 0, modelled as `none`);
a control code point other than tab and newline expands to a visible
placeholder of width-1 units; everything else is one unit whose width is
`RuneWidth` for printable code points and 1 otherwise. -/
def DetermineRenderedCodePoint (cm : CharMetrics) (codePoint : Char) (column : Nat)
    (config : Config) : Option (List RenderedCodePoint) :=
  if !cm.isPrint codePoint then
    if codePoint = '\t' then
      let tabWidth := config.tabWidth
      if tabWidth = 0 then none
      else
        let width := tabWidth - (goSub column 1 % tabWidth)
        some (List.replicate width ⟨1, ' '⟩)
    else if codePoint ≠ '\n' ∧ (codePoint.toNat < 32 ∨ codePoint.toNat = 127) then
      some ((cm.nonPrintableCharString codePoint).map (fun c => ⟨1, c⟩))
    else
      some [⟨1, codePoint⟩]
  else
    some [⟨cm.runeWidth codePoint, codePoint⟩]

/-- `setCellAndAdvanceIndex`: under the bounds guard, write the code point
into the current cell (resetting its buffer, setting the component id,
clearing the glyph override, keeping `attr`) and advance the cell index,
but only when the column has reached the start column; the column always
advances by the unit's width while inside the bounds guard. -/
def LineBuilder.setCellAndAdvanceIndex (lb : LineBuilder) (codePoint : Char) (width : Nat)
    (componentId : ThemeComponentId) : Option LineBuilder :=
  if lb.cellIndex < lb.line.cells.length then
    if lb.column ≥ lb.startColumn then
      match lb.line.cells[lb.cellIndex]? with
      | none => none
      | some cell =>
        let cell := { cell with codePoints := [codePoint],
                                style := { cell.style with componentId := componentId, acs_char := 0 } }
        some { lb with line := ⟨lb.line.cells.set lb.cellIndex cell⟩,
                       cellIndex := lb.cellIndex + 1,
                       column := lb.column + width }
    else
      some { lb with column := lb.column + width }
  else
    some lb

/-- The loop body of `LineBuilder.Clear`: blank up to `cellNum` cells
starting at the current cell index, stopping at the end of the line. -/
def clearLoop : Nat → LineBuilder → Option LineBuilder
  | 0, lb => some lb
  | n + 1, lb =>
    if lb.cellIndex < lb.line.cells.length then
      match lb.line.cells[lb.cellIndex]? with
      | none => none
      | some cell =>
        clearLoop n { lb with line := ⟨lb.line.cells.set lb.cellIndex { cell with codePoints := [] }⟩,
                              cellIndex := lb.cellIndex + 1 }
    else
      some lb

/-- `Clear(cellNum)` blanks the next `cellNum` cells (content only, style
untouched), bounded by the line length. -/
def LineBuilder.Clear (lb : LineBuilder) (cellNum : Nat) : Option LineBuilder :=
  clearLoop cellNum lb

/-- `appendToPreviousCell`: append a (zero-width) code point to the most
recently written cell.  The Go code guards `cellIndex > 0` but not the
upper bound of `cellIndex - 1`. -/
def LineBuilder.appendToPreviousCell (lb : LineBuilder) (codePoint : Char) : Option LineBuilder :=
  if lb.cellIndex > 0 then
    match lb.line.cells[lb.cellIndex - 1]? with
    | none => none
    | some cell =>
      some { lb with line := ⟨lb.line.cells.set (lb.cellIndex - 1)
                                { cell with codePoints := cell.codePoints ++ [codePoint] }⟩ }
  else
    some lb

/-- The inner loop of `AppendWithStyle` over the rendered units of one code
point; `break` when the cell index exceeds the line length exits this inner
loop only. -/
def processUnits (componentId : ThemeComponentId) :
    List RenderedCodePoint → LineBuilder → Option LineBuilder
  | [], lb => some lb
  | u :: rest, lb =>
    if lb.cellIndex > lb.line.cells.length then
      some lb
    else if u.width > 1 then
      match lb.setCellAndAdvanceIndex u.codePoint u.width componentId with
      | none => none
      | some lb1 =>
        match lb1.Clear (u.width - 1) with
        | none => none
        | some lb2 => processUnits componentId rest lb2
    else if u.width > 0 then
      match lb.setCellAndAdvanceIndex u.codePoint u.width componentId with
      | none => none
      | some lb1 => processUnits componentId rest lb1
    else
      match lb.appendToPreviousCell u.codePoint with
      | none => none
      | some lb1 => processUnits componentId rest lb1

/-- The outer loop of `AppendWithStyle` over the code points of the
formatted string: classify each code point at the current column, then run
the inner unit loop. -/
def AppendChars (cm : CharMetrics) (componentId : ThemeComponentId) :
    List Char → LineBuilder → Option LineBuilder
  | [], lb => some lb
  | c :: rest, lb =>
    match DetermineRenderedCodePoint cm c lb.column lb.config with
    | none => none
    | some units =>
      match processUnits componentId units lb with
      | none => none
      | some lb1 => AppendChars cm componentId rest lb1

/-- `AppendWithStyle(componentId, format, args...)`: the formatted string is
passed directly as a rune list. -/
def LineBuilder.AppendWithStyle (lb : LineBuilder) (cm : CharMetrics)
    (componentId : ThemeComponentId) (str : List Char) : Option LineBuilder :=
  AppendChars cm componentId str lb

/-- `Append` delegates to `AppendWithStyle` with `CMP_NONE`. -/
def LineBuilder.Append (lb : LineBuilder) (cm : CharMetrics) (str : List Char) :
    Option LineBuilder :=
  lb.AppendWithStyle cm CMP_NONE str

/-- `ToLineStart` rewinds the cell index and disables start-column skipping. -/
def LineBuilder.ToLineStart (lb : LineBuilder) : LineBuilder :=
  { lb with cellIndex := 0, startColumn := 1 }

def NewWindow (id : String) (config : Config) : Window :=
  { id := id, rows := 0, cols := 0, lines := [], startRow := 0, startCol := 0,
    config := config, cursor := none }

/-- `Resize`: no-op when the dimensions are unchanged, otherwise reallocate
the grid of zero-value lines. -/
def Window.Resize (win : Window) (viewDimension : ViewDimension) : Window :=
  if win.rows = viewDimension.rows ∧ win.cols = viewDimension.cols then
    win
  else
    { win with rows := viewDimension.rows, cols := viewDimension.cols,
               lines := List.replicate viewDimension.rows (NewLine viewDimension.cols) }

/-- `Window.Clear` resets every cell to a single space with zero style and
unsets the cursor. -/
def Window.winClear (win : Window) : Window :=
  { win with
      lines := win.lines.map (fun line =>
        ⟨line.cells.map (fun _ =>
          { codePoints := [' '],
            style := { componentId := CMP_NONE, attr := 0, acs_char := 0 } })⟩),
      cursor := none }

/-- `Window.LineBuilder(rowIndex, startColumn)`: error when the row index is
out of range or the start column is zero, otherwise a fresh line builder on
that row. -/
def Window.MkLineBuilder (win : Window) (rowIndex startColumn : Nat) :
    Option (Except String LineBuilder) :=
  if rowIndex ≥ win.rows then
    some (Except.error "Invalid row index")
  else if startColumn = 0 then
    some (Except.error "Column must be postive")
  else
    match win.lines[rowIndex]? with
    | none => none
    | some line => some (Except.ok (NewLineBuilder line win.config startColumn))

/-- `SetRow` delegates to the line builder and `AppendWithStyle`, writing the
built line back into the grid. -/
def Window.SetRow (win : Window) (cm : CharMetrics) (rowIndex startColumn : Nat)
    (themeComponentId : ThemeComponentId) (str : List Char) : Option (Except String Window) :=
  match win.MkLineBuilder rowIndex startColumn with
  | none => none
  | some (Except.error e) => some (Except.error e)
  | some (Except.ok lb) =>
    match lb.AppendWithStyle cm themeComponentId str with
    | none => none
    | some lb1 => some (Except.ok { win with lines := win.lines.set rowIndex lb1.line })

/-- `SetSelectedRow` ORs a reverse-video attribute (plus dim when inactive)
into every cell of the row and resets the component id. -/
def Window.SetSelectedRow (win : Window) (rowIndex : Nat) (active : Bool) :
    Option (Except String Window) :=
  if rowIndex ≥ win.rows then
    some (Except.error "Invalid row index")
  else
    let attr := if active then A_REVERSE else A_REVERSE ||| A_DIM
    match win.lines[rowIndex]? with
    | none => none
    | some line =>
      let line : Line := ⟨line.cells.map (fun cell =>
        { cell with style := { cell.style with attr := cell.style.attr ||| attr,
                                               componentId := CMP_NONE } })⟩
      some (Except.ok { win with lines := win.lines.set rowIndex line })

/-- `SetCursor` validates both coordinates then records the cursor. -/
def Window.SetCursor (win : Window) (rowIndex colIndex : Nat) : Except String Window :=
  if rowIndex ≥ win.rows then
    Except.error "Invalid row index"
  else if colIndex ≥ win.cols then
    Except.error "Invalid col index"
  else
    Except.ok { win with cursor := some ⟨rowIndex, colIndex⟩ }

/-- `setHeader`: silently succeed on windows smaller than 3x3; pad the text
with one space on each side; a right-justified (footer) header bails out
(with no error) when the padded length exceeds `cols + 2`, and otherwise
positions the cell index by unsigned subtraction `cols - (2 + formattedLen)`
which wraps around when `2 + formattedLen > cols`. -/
def Window.setHeader (win : Window) (cm : CharMetrics) (rowIndex : Nat) (rightJustified : Bool)
    (componentId : ThemeComponentId) (text : List Char) : Option (Except String Window) :=
  if win.rows < 3 ∨ win.cols < 3 then
    some (Except.ok win)
  else
    match win.MkLineBuilder rowIndex 1 with
    | none => none
    | some (Except.error e) => some (Except.error e)
    | some (Except.ok lb) =>
      let padded := ' ' :: text ++ [' ']
      if rightJustified then
        let formattedLen := padded.length
        if formattedLen > win.cols + 2 then
          some (Except.ok win)
        else
          let lb := { lb with cellIndex := goSub win.cols (2 + formattedLen) }
          let lb := { lb with column := (lb.cellIndex + 1) % goUintSize }
          match lb.AppendWithStyle cm componentId padded with
          | none => none
          | some lb1 => some (Except.ok { win with lines := win.lines.set rowIndex lb1.line })
      else
        let lb := { lb with cellIndex := 2 }
        let lb := { lb with column := (lb.cellIndex + 1) % goUintSize }
        match lb.AppendWithStyle cm componentId padded with
        | none => none
        | some lb1 => some (Except.ok { win with lines := win.lines.set rowIndex lb1.line })

/-- `SetTitle` is a left-justified header on row 0. -/
def Window.SetTitle (win : Window) (cm : CharMetrics) (componentId : ThemeComponentId)
    (text : List Char) : Option (Except String Window) :=
  win.setHeader cm 0 false componentId text

/-- `SetFooter` is a right-justified header on the last row; on a window
with no rows it logs and returns no error. -/
def Window.SetFooter (win : Window) (cm : CharMetrics) (componentId : ThemeComponentId)
    (text : List Char) : Option (Except String Window) :=
  if win.rows < 1 then
    some (Except.ok win)
  else
    win.setHeader cm (win.rows - 1) true componentId text

def setAcs (a : Nat) (cell : Cell) : Cell :=
  { cell with style := { cell.style with acs_char := a } }

def setAcsAt (a : Nat) (i : Nat) (line : Line) : Option Line :=
  match line.cells[i]? with
  | none => none
  | some cell => some ⟨line.cells.set i (setAcs a cell)⟩

/-- Run of `count` horizontal glyph writes starting at index `i`
(the `for i := 1; i < cols-1` loops of `DrawBorder`). -/
def setAcsRun (a : Nat) : Nat → Nat → Line → Option Line
  | _, 0, line => some line
  | i, n + 1, line =>
    match setAcsAt a i line with
    | none => none
    | some line1 => setAcsRun a (i + 1) n line1

/-- The middle-rows loop of `DrawBorder`: vertical glyphs in the first and
last cell of rows `i, i+1, ...` (`count` of them). -/
def borderMiddle (cols : Nat) : Nat → Nat → List Line → Option (List Line)
  | _, 0, lines => some lines
  | i, n + 1, lines =>
    match lines[i]? with
    | none => none
    | some line =>
      match setAcsAt ACS_VLINE 0 line with
      | none => none
      | some line1 =>
        match setAcsAt ACS_VLINE (cols - 1) line1 with
        | none => none
        | some line2 => borderMiddle cols (i + 1) n (lines.set i line2)

/-- `DrawBorder`: no-op below 3x3, otherwise writes the glyph overrides of
the four edges and corners. -/
def Window.DrawBorder (win : Window) : Option Window :=
  if win.rows < 3 ∨ win.cols < 3 then
    some win
  else
    match win.lines[0]? with
    | none => none
    | some firstLine =>
      match setAcsAt ACS_ULCORNER 0 firstLine with
      | none => none
      | some l1 =>
        match setAcsRun ACS_HLINE 1 (win.cols - 2) l1 with
        | none => none
        | some l2 =>
          match setAcsAt ACS_URCORNER (win.cols - 1) l2 with
          | none => none
          | some l3 =>
            let lines := win.lines.set 0 l3
            match borderMiddle win.cols 1 (win.rows - 2) lines with
            | none => none
            | some lines1 =>
              match lines1[win.rows - 1]? with
              | none => none
              | some lastLine =>
                match setAcsAt ACS_LLCORNER 0 lastLine with
                | none => none
                | some m1 =>
                  match setAcsRun ACS_HLINE 1 (win.cols - 2) m1 with
                  | none => none
                  | some m2 =>
                    match setAcsAt ACS_LRCORNER (win.cols - 1) m2 with
                    | none => none
                    | some m3 =>
                      some { win with lines := lines1.set (win.rows - 1) m3 }

/-- `ApplyStyle` repaints every cell's component id. -/
def Window.ApplyStyle (win : Window) (themeComponentId : ThemeComponentId) : Window :=
  { win with lines := win.lines.map (fun line =>
      ⟨line.cells.map (fun cell =>
        { cell with style := { cell.style with componentId := themeComponentId } })⟩) }

/-!
The key-sequence resolver.  The repository's `input_buffer.go` is not part
of the visible sources (only its test file is), so the resolver below is
modelled from the specification's algorithm for `Process`, cross-checked
against the observable behaviour fixed by `input_buffer_test.go`.
-/

inductive ActionType where
  | ActionNone
  | ActionFirstLine
deriving DecidableEq

structure Action where
  actionType : ActionType
deriving DecidableEq

inductive ViewID where
  | ViewMain
  | ViewHistory
  | ViewCommit
deriving DecidableEq

abbrev ViewHierarchy := List ViewID

/-- A binding is either an action binding or a keystring (macro) binding.
As in the tests, "no binding" is represented by an action binding wrapping
`ActionNone`. -/
inductive Binding where
  | actionBinding (actionType : ActionType)
  | keystringBinding (keystring : List Char)
deriving DecidableEq

def newActionBinding (actionType : ActionType) : Binding :=
  Binding.actionBinding actionType

def newKeystringBinding (keystring : List Char) : Binding :=
  Binding.keystringBinding keystring

/-- The Binding Provider: a pure query from a view hierarchy and a candidate
keystring to the binding and the "could still be a prefix of a longer
binding" flag. -/
abbrev KeyBindings := ViewHierarchy → List Char → Binding × Bool

/-- Modelled from the spec: step 2 and 3 of `Process` — scan prefixes of the
buffer of increasing length `i`, `countdown` many of them, and stop at the
first decisive result (the flag returned alongside the binding is false);
`none` means the whole buffer was scanned and is still ambiguous. -/
def scanPrefixes (kb : KeyBindings) (vh : ViewHierarchy) (buffer : List Char) :
    Nat → Nat → Option (Nat × Binding)
  | _, 0 => none
  | i, countdown + 1 =>
    let r := kb vh (buffer.take i)
    if r.2 then scanPrefixes kb vh buffer (i + 1) countdown
    else some (i, r.1)

/-- Modelled from the spec: steps 2-7 of `Process`.  A decisive action
binding consumes the matched prefix; a decisive keystring binding splices
its replacement in front of the unmatched remainder and restarts the scan;
a decisive no-binding result (an `ActionNone` action binding, as in the
tests) is a dead end consuming one character; a fully ambiguous buffer
consumes nothing.  The spec notes the macro restart has no cycle guard, so
the restart recursion is bounded by explicit fuel. -/
def processBuffer (kb : KeyBindings) (vh : ViewHierarchy) :
    Nat → List Char → (Action × List Char) × List Char
  | 0, buffer => ((⟨ActionType.ActionNone⟩, []), buffer)
  | fuel + 1, buffer =>
    match scanPrefixes kb vh buffer 1 buffer.length with
    | none => ((⟨ActionType.ActionNone⟩, []), buffer)
    | some (i, Binding.actionBinding actionType) =>
      if actionType = ActionType.ActionNone then
        ((⟨ActionType.ActionNone⟩, buffer.take 1), buffer.drop 1)
      else
        ((⟨actionType⟩, buffer.take i), buffer.drop i)
    | some (i, Binding.keystringBinding t) =>
      processBuffer kb vh fuel (t ++ buffer.drop i)

/-- Modelled from the spec: the resolver's pending buffer. -/
structure InputBuffer where
  buffer : List Char
deriving DecidableEq

def NewInputBuffer : InputBuffer := ⟨[]⟩

/-- Modelled from the spec: `Append` adds raw characters to the pending
buffer without attempting resolution. -/
def InputBuffer.Append (ib : InputBuffer) (keys : List Char) : InputBuffer :=
  ⟨ib.buffer ++ keys⟩

/-- Modelled from the spec: `Process` — empty buffer short-circuits with the
no-op result and no lookups; otherwise one resolution step on the buffer. -/
def InputBuffer.Process (ib : InputBuffer) (kb : KeyBindings) (vh : ViewHierarchy)
    (fuel : Nat) : (Action × List Char) × InputBuffer :=
  if ib.buffer.isEmpty then
    ((⟨ActionType.ActionNone⟩, []), ib)
  else
    let r := processBuffer kb vh fuel ib.buffer
    (r.1, ⟨r.2⟩)

/-!
Concrete instances used by the test-shaped claims: the view hierarchy and
the mock binding tables of `input_buffer_test.go`, and a concrete set of
Unicode collaborators for evaluation.
-/

def vhTest : ViewHierarchy := [ViewID.ViewMain, ViewID.ViewHistory, ViewID.ViewCommit]

/-- The binding table of `TestKeystringBindingIsExpandedInPlace`:
`"a"` is a macro for `"bb"`, `"b"` and `"bb"` are ambiguous prefixes,
`"bbb"` is bound to `ActionFirstLine`. -/
def kbExpand : KeyBindings := fun _ ks =>
  if ks = ['a'] then (newKeystringBinding ['b', 'b'], false)
  else if ks = ['b'] then (newActionBinding ActionType.ActionNone, true)
  else if ks = ['b', 'b'] then (newActionBinding ActionType.ActionNone, true)
  else if ks = ['b', 'b', 'b'] then (newActionBinding ActionType.ActionFirstLine, false)
  else (newActionBinding ActionType.ActionNone, false)

/-- The binding table of
`TestPotentialPrefixMatchIsReturnedAsSeparateKeysWhenFullInputDoesNotMatchBinding`:
`"a"` is an ambiguous prefix, `"b"` and `"ab"` are decisively unbound. -/
def kbDeadEnd : KeyBindings := fun _ ks =>
  if ks = ['a'] then (newActionBinding ActionType.ActionNone, true)
  else if ks = ['b'] then (newActionBinding ActionType.ActionNone, false)
  else if ks = ['a', 'b'] then (newActionBinding ActionType.ActionNone, false)
  else (newActionBinding ActionType.ActionNone, false)

/-- The binding table of `TestMultiKeyPressIsMappedToBinding`: `"a"` and
`"ab"` are ambiguous prefixes, `"abc"` is bound to `ActionFirstLine`. -/
def kbMulti : KeyBindings := fun _ ks =>
  if ks = ['a'] then (newActionBinding ActionType.ActionNone, true)
  else if ks = ['a', 'b'] then (newActionBinding ActionType.ActionNone, true)
  else if ks = ['a', 'b', 'c'] then (newActionBinding ActionType.ActionFirstLine, false)
  else (newActionBinding ActionType.ActionNone, false)

/-- A concrete instance of the external Unicode collaborators, for
evaluating the rendering code on concrete inputs: printable means the
ASCII printable range together with everything at or above `0x1100`, which
is rendered two columns wide. -/
def cmTest : CharMetrics :=
  { isPrint := fun c => decide (32 ≤ c.toNat) && decide (c.toNat ≠ 127),
    runeWidth := fun c => if 0x1100 ≤ c.toNat then 2 else 1,
    nonPrintableCharString := fun _ => ['^', '?'] }

def cfg8 : Config := ⟨8⟩

def spaceCell : Cell :=
  { codePoints := [' '], style := { componentId := CMP_NONE, attr := 0, acs_char := 0 } }

def lineOfSpaces (cols : Nat) : Line := ⟨List.replicate cols spaceCell⟩

def win33 : Window :=
  { id := "w33", rows := 3, cols := 3, lines := List.replicate 3 (lineOfSpaces 3),
    startRow := 0, startCol := 0, config := cfg8, cursor := none }

def win34 : Window :=
  { id := "w34", rows := 3, cols := 4, lines := List.replicate 3 (lineOfSpaces 4),
    startRow := 0, startCol := 0, config := cfg8, cursor := none }

def win38 : Window :=
  { id := "w38", rows := 3, cols := 8, lines := List.replicate 3 (lineOfSpaces 8),
    startRow := 0, startCol := 0, config := cfg8, cursor := none }

def win22 : Window :=
  { id := "w22", rows := 2, cols := 2, lines := List.replicate 2 (lineOfSpaces 2),
    startRow := 0, startCol := 0, config := cfg8, cursor := none }

/-- Total display width of a list of rendered units. -/
def unitsWidth : List RenderedCodePoint → Nat
  | [] => 0
  | u :: us => u.width + unitsWidth us

/-- The column reached after classifying a string starting at the given
column, advancing by each rendered unit's width (the column bookkeeping of
`AppendWithStyle` when every unit stays inside the line). -/
def colAfter (cm : CharMetrics) (config : Config) : Nat → List Char → Option Nat
  | col, [] => some col
  | col, c :: rest =>
    match DetermineRenderedCodePoint cm c col config with
    | none => none
    | some us => colAfter cm config (col + unitsWidth us) rest

/-- The cell list produced by writing a run of width-1 code points at
consecutive indices starting at `i`: each written cell keeps its old
`attr`, takes the given component id and drops any glyph override. -/
def writeChars (componentId : ThemeComponentId) : List Char → Nat → List Cell → List Cell
  | [], _, cells => cells
  | c :: rest, i, cells =>
    writeChars componentId rest (i + 1)
      (cells.set i { codePoints := [c],
                     style := { componentId := componentId,
                                attr := (cells.getD i emptyCell).style.attr,
                                acs_char := 0 } })

/-- Whether an `Except` result is a success. -/
def exceptIsOk {ε α : Type} : Except ε α → Bool
  | Except.ok _ => true
  | Except.error _ => false

/-- A two-cell line of spaces viewed through a line builder whose start
column is 5: every column of a short append stays left of the start
column. -/
def lbStart5 : LineBuilder :=
  { line := ⟨[spaceCell, spaceCell]⟩, cellIndex := 0, column := 1, startColumn := 5,
    config := cfg8 }

/-- A three-cell line of spaces with a fresh line builder (cell index 0,
column 1, start column 1). -/
def lbRow3 : LineBuilder :=
  { line := ⟨List.replicate 3 spaceCell⟩, cellIndex := 0, column := 1, startColumn := 1,
    config := cfg8 }

/-!
Theorems.
-/

/-- C1: with `"a"` bound as a macro for `"bb"`, `"b"`/`"bb"` ambiguous
prefixes and `"bbb"` bound to an action, one `Process` call on the pending
buffer `"ab"` splices the replacement in place of the matched prefix
(restarting the scan on `"bb" ++ "b" = "bbb"`) and returns the action with
the fully expanded keystring `"bbb"`, leaving the buffer empty. -/
theorem claim_C1_macro_expansion_transparent :
    (∀ fuel, processBuffer kbExpand vhTest (fuel + 1) ['a', 'b']
      = processBuffer kbExpand vhTest fuel ['b', 'b', 'b'])
    ∧ (NewInputBuffer.Append ['a', 'b']).Process kbExpand vhTest 2
      = ((⟨ActionType.ActionFirstLine⟩, ['b', 'b', 'b']), ⟨[]⟩) :=
  ⟨fun _ => rfl, rfl⟩

/-- C2: with `"a"` an ambiguous prefix and `"ab"` decisively unbound, the
scan reaches the dead end only at full buffer length, so `Process` on the
buffer `"ab"` consumes exactly one character, returning `(NoAction, "a")`
with `"b"` retained, and the next call on the retained remainder returns
`(NoAction, "b")`. -/
theorem claim_C2_dead_end_consumes_one_char :
    (NewInputBuffer.Append ['a', 'b']).Process kbDeadEnd vhTest 1
      = ((⟨ActionType.ActionNone⟩, ['a']), ⟨['b']⟩)
    ∧ (((NewInputBuffer.Append ['a', 'b']).Process kbDeadEnd vhTest 1).2).Process
        kbDeadEnd vhTest 1
      = ((⟨ActionType.ActionNone⟩, ['b']), ⟨[]⟩) :=
  ⟨rfl, rfl⟩

/-- C7: with `"a"` and `"ab"` ambiguous prefixes and `"abc"` bound, the two
intermediate `Process` calls return the no-op action with the empty
keystring and leave their buffers untouched, and the call after the full
sequence has accumulated consumes `"abc"` and returns the bound action. -/
theorem claim_C7_ambiguous_prefixes_wait_for_full_sequence :
    (NewInputBuffer.Append ['a']).Process kbMulti vhTest 1
      = ((⟨ActionType.ActionNone⟩, []), ⟨['a']⟩)
    ∧ ((InputBuffer.mk ['a']).Append ['b']).Process kbMulti vhTest 1
      = ((⟨ActionType.ActionNone⟩, []), ⟨['a', 'b']⟩)
    ∧ ((InputBuffer.mk ['a', 'b']).Append ['c']).Process kbMulti vhTest 1
      = ((⟨ActionType.ActionFirstLine⟩, ['a', 'b', 'c']), ⟨[]⟩) :=
  ⟨rfl, rfl, rfl⟩

/-- C3 counterexample: on a 3-column window, `SetRow` with start column 5
(at or beyond the column count) succeeds — the window is returned unchanged
with no error — so `SetRow` does not fail on an out-of-range start
column. -/
theorem claim_C3_counterexample :
    win33.cols = 3
    ∧ win33.SetRow cmTest 0 5 CMP_NONE ['x'] = some (Except.ok win33) := by
  exact ⟨rfl, rfl⟩

/-- C4 counterexample: after `Resize` the freshly allocated cell contains no
code points at all — not a single space code point as claimed. -/
theorem claim_C4_counterexample :
    ((NewWindow "w" cfg8).Resize ⟨1, 1⟩).lines.map (fun l => l.cells.map (fun c => c.codePoints))
      = [[[]]]
    ∧ ([] : List Char) ≠ [' '] := by
  exact ⟨rfl, by decide⟩

/-- C5 counterexample: appending one wide (width-2) code point with start
column 5 leaves the running column at 3, strictly below the start column
for the whole call, yet the first cell's content is changed from a space to
empty — the blanking step after a wide code point ignores the start
column. -/
theorem claim_C5_counterexample :
    (lbStart5.AppendWithStyle cmTest CMP_NONE ['世']).map
        (fun lb => (lb.line.cells.map (fun c => c.codePoints), lb.column))
      = some ([[], [' ']], 3)
    ∧ 3 < lbStart5.startColumn
    ∧ ([] : List Char) ≠ [' '] := by
  refine ⟨rfl, by decide, by decide⟩

/-- C6 counterexample: on a 4-column window the padded footer `" ab "` has
character count 4, which fits within the window's column count, yet
`SetFooter` writes nothing and returns no error (the unsigned
right-justification index wraps around and the append is skipped
entirely). -/
theorem claim_C6_counterexample :
    win34.cols = 4
    ∧ (' ' :: ['a', 'b'] ++ [' ']).length = 4
    ∧ win34.SetFooter cmTest CMP_NONE ['a', 'b'] = some (Except.ok win34) := by
  exact ⟨rfl, rfl, rfl⟩

/-- C4 amended: `Resize` with unchanged dimensions returns the window
untouched; with changed dimensions it reallocates the grid so that every
cell is the zero-value cell — empty content (no code points, rather than a
single space), default style and no glyph override. -/
theorem claim_C4_resize_reallocates_empty_cells :
    ∀ (win : Window) (vd : ViewDimension),
      (win.rows = vd.rows ∧ win.cols = vd.cols → win.Resize vd = win)
      ∧ (¬(win.rows = vd.rows ∧ win.cols = vd.cols) →
          (win.Resize vd).lines = List.replicate vd.rows ⟨List.replicate vd.cols emptyCell⟩) := by
  intro win vd
  refine ⟨fun h => ?_, fun h => ?_⟩
  · unfold Window.Resize
    rw [if_pos h]
  · unfold Window.Resize
    rw [if_neg h]
    rfl

/-- Witness for C4 amended at concrete windows: a 3x3 resize to 3x3 is the
identity, and a fresh window resized to 1x2 holds exactly one line of two
zero-value cells. -/
theorem claim_C4_resize_reallocates_empty_cells_witness :
    (win33.rows = 3 ∧ win33.cols = 3)
    ∧ win33.Resize ⟨3, 3⟩ = win33
    ∧ ((NewWindow "w" cfg8).Resize ⟨1, 2⟩).lines
        = List.replicate 1 ⟨List.replicate 2 emptyCell⟩ :=
  ⟨by decide,
   (claim_C4_resize_reallocates_empty_cells win33 ⟨3, 3⟩).1 ⟨rfl, rfl⟩,
   (claim_C4_resize_reallocates_empty_cells (NewWindow "w" cfg8) ⟨1, 2⟩).2 (by decide)⟩

/-- `setCellAndAdvanceIndex` never panics: its only cell access sits under
the `cellIndex < length` guard.  The configuration is untouched. -/
theorem setCellAndAdvanceIndex_some (lb : LineBuilder) (cp : Char) (w : Nat)
    (cid : ThemeComponentId) :
    ∃ lb', lb.setCellAndAdvanceIndex cp w cid = some lb' ∧ lb'.config = lb.config := by
  unfold LineBuilder.setCellAndAdvanceIndex
  by_cases h1 : lb.cellIndex < lb.line.cells.length
  · rw [if_pos h1]
    by_cases h2 : lb.column ≥ lb.startColumn
    · rw [if_pos h2, List.getElem?_eq_getElem h1]
      exact ⟨_, rfl, rfl⟩
    · rw [if_neg h2]
      exact ⟨_, rfl, rfl⟩
  · rw [if_neg h1]
    exact ⟨_, rfl, rfl⟩

/-- The `Clear` loop never panics: each access sits under the loop's
`cellIndex < length` condition. -/
theorem clearLoop_some : ∀ (n : Nat) (lb : LineBuilder),
    ∃ lb', clearLoop n lb = some lb' ∧ lb'.config = lb.config := by
  intro n
  induction n with
  | zero => intro lb; exact ⟨lb, rfl, rfl⟩
  | succ n ih =>
    intro lb
    unfold clearLoop
    by_cases h1 : lb.cellIndex < lb.line.cells.length
    · rw [if_pos h1, List.getElem?_eq_getElem h1]
      obtain ⟨lb', heq, hcfg⟩ := ih _
      exact ⟨lb', heq, hcfg⟩
    · rw [if_neg h1]
      exact ⟨lb, rfl, rfl⟩

/-- `appendToPreviousCell` cannot panic as long as the cell index is at
most the line length, which the caller's break check guarantees. -/
theorem appendToPreviousCell_some (lb : LineBuilder) (cp : Char)
    (h : lb.cellIndex ≤ lb.line.cells.length) :
    ∃ lb', lb.appendToPreviousCell cp = some lb' ∧ lb'.config = lb.config := by
  unfold LineBuilder.appendToPreviousCell
  by_cases h1 : lb.cellIndex > 0
  · rw [if_pos h1]
    have hlt : lb.cellIndex - 1 < lb.line.cells.length := by omega
    rw [List.getElem?_eq_getElem hlt]
    exact ⟨_, rfl, rfl⟩
  · rw [if_neg h1]
    exact ⟨lb, rfl, rfl⟩

/-- The inner unit loop of `AppendWithStyle` never panics, on any line
builder state. -/
theorem processUnits_some (cid : ThemeComponentId) : ∀ (us : List RenderedCodePoint)
    (lb : LineBuilder), ∃ lb', processUnits cid us lb = some lb' ∧ lb'.config = lb.config := by
  intro us
  induction us with
  | nil => intro lb; exact ⟨lb, rfl, rfl⟩
  | cons u rest ih =>
    intro lb
    unfold processUnits
    by_cases hbr : lb.cellIndex > lb.line.cells.length
    · rw [if_pos hbr]
      exact ⟨lb, rfl, rfl⟩
    · rw [if_neg hbr]
      by_cases hw1 : u.width > 1
      · rw [if_pos hw1]
        obtain ⟨lb1, h1, c1⟩ := setCellAndAdvanceIndex_some lb u.codePoint u.width cid
        obtain ⟨lb2, h2, c2⟩ := clearLoop_some (u.width - 1) lb1
        obtain ⟨lb3, h3, c3⟩ := ih lb2
        simp only [h1, LineBuilder.Clear, h2, h3]
        exact ⟨lb3, rfl, by rw [c3, c2, c1]⟩
      · rw [if_neg hw1]
        by_cases hw0 : u.width > 0
        · rw [if_pos hw0]
          obtain ⟨lb1, h1, c1⟩ := setCellAndAdvanceIndex_some lb u.codePoint u.width cid
          obtain ⟨lb2, h2, c2⟩ := ih lb1
          simp only [h1, h2]
          exact ⟨lb2, rfl, by rw [c2, c1]⟩
        · rw [if_neg hw0]
          obtain ⟨lb1, h1, c1⟩ := appendToPreviousCell_some lb u.codePoint (Nat.le_of_not_lt hbr)
          obtain ⟨lb2, h2, c2⟩ := ih lb1
          simp only [h1, h2]
          exact ⟨lb2, rfl, by rw [c2, c1]⟩

/-- Classification of a code point only panics through Go's modulo-by-zero
on a zero tab width; with a positive tab width it always succeeds. -/
theorem DetermineRenderedCodePoint_some (cm : CharMetrics) (c : Char) (col : Nat)
    (config : Config) (h : 0 < config.tabWidth) :
    ∃ us, DetermineRenderedCodePoint cm c col config = some us := by
  unfold DetermineRenderedCodePoint
  have htw : config.tabWidth ≠ 0 := by omega
  split
  · split
    · simp only [htw, if_false, if_neg htw]
      exact ⟨_, rfl⟩
    · split
      · exact ⟨_, rfl⟩
      · exact ⟨_, rfl⟩
  · exact ⟨_, rfl⟩

/-- The outer loop of `AppendWithStyle` never panics for a positive tab
width, on any string and any line builder state. -/
theorem AppendChars_some (cm : CharMetrics) (cid : ThemeComponentId) :
    ∀ (str : List Char) (lb : LineBuilder), 0 < lb.config.tabWidth →
      ∃ lb', AppendChars cm cid str lb = some lb' ∧ lb'.config = lb.config := by
  intro str
  induction str with
  | nil => intro lb _; exact ⟨lb, rfl, rfl⟩
  | cons c rest ih =>
    intro lb h
    unfold AppendChars
    obtain ⟨us, hus⟩ := DetermineRenderedCodePoint_some cm c lb.column lb.config h
    obtain ⟨lb1, h1, c1⟩ := processUnits_some cid us lb
    obtain ⟨lb2, h2, c2⟩ := ih lb1 (by rw [c1]; exact h)
    simp only [hus, h1, h2]
    exact ⟨lb2, rfl, by rw [c2, c1]⟩

/-- C10: for every line length, start column, initial cell index (including
wrapped-around values assigned by `setHeader`), column and input string,
`Append`/`AppendWithStyle` and `Clear` are total — every cell access is
guarded, so no out-of-bounds access (modelled as a `none` result) can
occur.  A positive tab width is assumed, since Go's tab expansion divides
by the configured tab width. -/
theorem claim_C10_line_builder_totality :
    ∀ (cm : CharMetrics) (cid : ThemeComponentId) (str : List Char) (lb : LineBuilder)
      (n : Nat) (lb2 : LineBuilder),
      0 < lb.config.tabWidth →
      (lb.AppendWithStyle cm cid str).isSome = true
      ∧ (lb.Append cm str).isSome = true
      ∧ (lb2.Clear n).isSome = true := by
  intro cm cid str lb n lb2 h
  refine ⟨?_, ?_, ?_⟩
  · obtain ⟨lb', h', _⟩ := AppendChars_some cm cid str lb h
    simp [LineBuilder.AppendWithStyle, h']
  · obtain ⟨lb', h', _⟩ := AppendChars_some cm CMP_NONE str lb h
    simp [LineBuilder.Append, LineBuilder.AppendWithStyle, h']
  · obtain ⟨lb', h', _⟩ := clearLoop_some n lb2
    simp [LineBuilder.Clear, h']

/-- Witness for C10 at a concrete state: a string mixing a printable ASCII
character, a tab and a wide code point on a two-cell line with start
column 5. -/
theorem claim_C10_line_builder_totality_witness :
    0 < lbStart5.config.tabWidth
    ∧ ((lbStart5.AppendWithStyle cmTest CMP_NONE ['x', '\t', '世']).isSome = true
       ∧ (lbStart5.Append cmTest ['x', '\t', '世']).isSome = true
       ∧ (lbStart5.Clear 2).isSome = true) :=
  ⟨by decide,
   claim_C10_line_builder_totality cmTest CMP_NONE ['x', '\t', '世'] lbStart5 2 lbStart5
     (by decide)⟩

/-- C3 amended: `SetCursor` fails exactly when the row index or column
index reaches the window's row or column count; `SetSelectedRow` fails
exactly when the row index reaches the row count; `SetRow` fails exactly
when the row index reaches the row count or the start column is zero — it
performs no bounds check of the start column against the column count. -/
theorem claim_C3_out_of_range_errors :
    ∀ (cm : CharMetrics) (win : Window) (r c sc : Nat) (a : Bool)
      (cid : ThemeComponentId) (text : List Char),
      win.rows ≤ win.lines.length → 0 < win.config.tabWidth →
      exceptIsOk (win.SetCursor r c) = (decide (r < win.rows) && decide (c < win.cols))
      ∧ (win.SetSelectedRow r a).map exceptIsOk = some (decide (r < win.rows))
      ∧ (win.SetRow cm r sc cid text).map exceptIsOk
          = some (decide (r < win.rows) && decide (sc ≠ 0)) := by
  intro cm win r c sc a cid text hlen htab
  refine ⟨?_, ?_, ?_⟩
  · by_cases hr : r < win.rows
    · by_cases hc : c < win.cols
      · simp [Window.SetCursor, if_neg (show ¬ r ≥ win.rows by omega),
              if_neg (show ¬ c ≥ win.cols by omega), exceptIsOk, hr, hc]
      · simp [Window.SetCursor, if_neg (show ¬ r ≥ win.rows by omega),
              if_pos (show c ≥ win.cols by omega), exceptIsOk, hr, hc]
    · simp [Window.SetCursor, if_pos (show r ≥ win.rows by omega), exceptIsOk, hr]
  · by_cases hr : r < win.rows
    · have hlt : r < win.lines.length := by omega
      simp [Window.SetSelectedRow, if_neg (show ¬ r ≥ win.rows by omega),
            List.getElem?_eq_getElem hlt, exceptIsOk, hr]
    · simp [Window.SetSelectedRow, if_pos (show r ≥ win.rows by omega), exceptIsOk, hr]
  · by_cases hr : r < win.rows
    · by_cases hsc : sc = 0
      · simp [Window.SetRow, Window.MkLineBuilder, if_neg (show ¬ r ≥ win.rows by omega),
              if_pos hsc, exceptIsOk, hr, hsc]
      · have hlt : r < win.lines.length := by omega
        obtain ⟨lb', hlb, _⟩ := AppendChars_some cm cid text
          (NewLineBuilder win.lines[r] win.config sc) (by simpa [NewLineBuilder] using htab)
        simp [Window.SetRow, Window.MkLineBuilder, if_neg (show ¬ r ≥ win.rows by omega),
              if_neg hsc, List.getElem?_eq_getElem hlt, LineBuilder.AppendWithStyle, hlb,
              exceptIsOk, hr, hsc]
    · simp [Window.SetRow, Window.MkLineBuilder, if_pos (show r ≥ win.rows by omega),
            exceptIsOk, hr]

/-- Witness for C3 amended on a concrete 3x3 window; in particular `SetRow`
with start column 5 (beyond the 3 columns) succeeds. -/
theorem claim_C3_out_of_range_errors_witness :
    (win33.rows ≤ win33.lines.length ∧ 0 < win33.config.tabWidth)
    ∧ (exceptIsOk (win33.SetCursor 1 1) = (decide (1 < win33.rows) && decide (1 < win33.cols))
       ∧ (win33.SetSelectedRow 1 true).map exceptIsOk = some (decide (1 < win33.rows))
       ∧ (win33.SetRow cmTest 1 5 CMP_NONE ['x']).map exceptIsOk
           = some (decide (1 < win33.rows) && decide (5 ≠ 0))) :=
  ⟨⟨by decide, by decide⟩,
   claim_C3_out_of_range_errors cmTest win33 1 1 5 true CMP_NONE ['x'] (by decide) (by decide)⟩

/-- C9: on a window with fewer than 3 rows or fewer than 3 columns,
`SetTitle`, `SetFooter` and `DrawBorder` are silent no-ops: no error is
returned and the window (hence every cell of the grid) is unchanged. -/
theorem claim_C9_small_window_noops :
    ∀ (cm : CharMetrics) (win : Window) (cid : ThemeComponentId) (text : List Char),
      win.rows < 3 ∨ win.cols < 3 →
      win.SetTitle cm cid text = some (Except.ok win)
      ∧ win.SetFooter cm cid text = some (Except.ok win)
      ∧ win.DrawBorder = some win := by
  intro cm win cid text h
  refine ⟨?_, ?_, ?_⟩
  · simp [Window.SetTitle, Window.setHeader, if_pos h]
  · unfold Window.SetFooter
    by_cases hr : win.rows < 1
    · rw [if_pos hr]
    · rw [if_neg hr]
      simp [Window.setHeader, if_pos h]
  · simp [Window.DrawBorder, if_pos h]

/-- Witness for C9 on a concrete 2x2 window. -/
theorem claim_C9_small_window_noops_witness :
    (win22.rows < 3 ∨ win22.cols < 3)
    ∧ (win22.SetTitle cmTest CMP_NONE ['t'] = some (Except.ok win22)
       ∧ win22.SetFooter cmTest CMP_NONE ['t'] = some (Except.ok win22)
       ∧ win22.DrawBorder = some win22) :=
  ⟨by decide, claim_C9_small_window_noops cmTest win22 CMP_NONE ['t'] (by decide)⟩

/-- C8: a printable width-2 code point written at or beyond the start
column, with room for it and for the following cell, is written into
exactly one cell (resetting that cell's content to the code point, keeping
its `attr`, clearing its glyph override), the column counter advances by 2,
the cell index advances past the written cell and past the blanked one, and
the immediately following cell is emptied while keeping its style. -/
theorem claim_C8_wide_code_point_placement :
    ∀ (cm : CharMetrics) (cid : ThemeComponentId) (cp : Char) (lb : LineBuilder),
      cm.isPrint cp = true →
      cm.runeWidth cp = 2 →
      lb.startColumn ≤ lb.column →
      lb.cellIndex + 1 < lb.line.cells.length →
      lb.AppendWithStyle cm cid [cp]
        = some { line := ⟨(lb.line.cells.set lb.cellIndex
                    { codePoints := [cp],
                      style := { componentId := cid,
                                 attr := (lb.line.cells.getD lb.cellIndex emptyCell).style.attr,
                                 acs_char := 0 } }).set (lb.cellIndex + 1)
                    { codePoints := [],
                      style := (lb.line.cells.getD (lb.cellIndex + 1) emptyCell).style }⟩,
                 cellIndex := lb.cellIndex + 2,
                 column := lb.column + 2,
                 startColumn := lb.startColumn,
                 config := lb.config } := by
  intro cm cid cp lb hp hw hcol hlen
  have h0 : lb.cellIndex < lb.line.cells.length := by omega
  have hbr : ¬ lb.cellIndex > lb.line.cells.length := by omega
  have hne : lb.cellIndex ≠ lb.cellIndex + 1 := by omega
  simp only [LineBuilder.AppendWithStyle, AppendChars, DetermineRenderedCodePoint, hp,
             Bool.not_true, Bool.false_eq_true, if_false, hw, processUnits, if_neg hbr,
             gt_iff_lt, LineBuilder.setCellAndAdvanceIndex, if_pos h0, ge_iff_le,
             if_pos hcol, List.getElem?_eq_getElem h0, LineBuilder.Clear, clearLoop,
             List.length_set, List.getElem?_set_ne hne, List.getElem?_eq_getElem hlen,
             List.getD_eq_getElem lb.line.cells emptyCell h0,
             List.getD_eq_getElem lb.line.cells emptyCell hlen]
  simp only [if_pos (show (1 : Nat) < 2 by omega), if_pos hlen]

/-- Witness for C8: the wide code point `'世'` written at the head of a
three-cell line of spaces. -/
theorem claim_C8_wide_code_point_placement_witness :
    (cmTest.isPrint '世' = true ∧ cmTest.runeWidth '世' = 2
     ∧ lbRow3.startColumn ≤ lbRow3.column ∧ lbRow3.cellIndex + 1 < lbRow3.line.cells.length)
    ∧ lbRow3.AppendWithStyle cmTest 7 ['世']
        = some { line := ⟨(lbRow3.line.cells.set lbRow3.cellIndex
                    { codePoints := ['世'],
                      style := { componentId := 7,
                                 attr := (lbRow3.line.cells.getD lbRow3.cellIndex emptyCell).style.attr,
                                 acs_char := 0 } }).set (lbRow3.cellIndex + 1)
                    { codePoints := [],
                      style := (lbRow3.line.cells.getD (lbRow3.cellIndex + 1) emptyCell).style }⟩,
                 cellIndex := lbRow3.cellIndex + 2,
                 column := lbRow3.column + 2,
                 startColumn := lbRow3.startColumn,
                 config := lbRow3.config } :=
  ⟨⟨by decide, by decide, by decide, by decide⟩,
   claim_C8_wide_code_point_placement cmTest 7 '世' lbRow3
     (by decide) (by decide) (by decide) (by decide)⟩

/-- While the column counter stays short of the start column and the cell
index is 0 on a nonempty line, processing units of width at most 1 only
advances the column (by the total width) and touches no cell. -/
theorem processUnits_below_startColumn (cid : ThemeComponentId) :
    ∀ (us : List RenderedCodePoint) (lb : LineBuilder),
      lb.cellIndex = 0 → 0 < lb.line.cells.length →
      (∀ u ∈ us, u.width ≤ 1) →
      lb.column + unitsWidth us ≤ lb.startColumn →
      processUnits cid us lb = some { lb with column := lb.column + unitsWidth us } := by
  intro us
  induction us with
  | nil =>
    intro lb _ _ _ _
    show some lb = _
    rfl
  | cons u rest ih =>
    intro lb hci hlen hw hcol
    have hbr : ¬ lb.cellIndex > lb.line.cells.length := by omega
    have hu : u.width ≤ 1 := hw u (List.mem_cons_self u rest)
    have hrest : ∀ v ∈ rest, v.width ≤ 1 := fun v hv => hw v (List.mem_cons_of_mem u hv)
    have hw1 : ¬ u.width > 1 := by omega
    have hcol' : lb.column + u.width + unitsWidth rest ≤ lb.startColumn := by
      unfold unitsWidth at hcol
      omega
    unfold processUnits
    rw [if_neg hbr, if_neg hw1]
    by_cases hw0 : u.width > 0
    · rw [if_pos hw0]
      have h0 : lb.cellIndex < lb.line.cells.length := by omega
      have hlow : ¬ lb.column ≥ lb.startColumn := by omega
      rw [show lb.setCellAndAdvanceIndex u.codePoint u.width cid
            = some { lb with column := lb.column + u.width } from by
        unfold LineBuilder.setCellAndAdvanceIndex
        rw [if_pos h0, if_neg hlow]]
      show processUnits cid rest { lb with column := lb.column + u.width }
        = some { lb with column := lb.column + unitsWidth (u :: rest) }
      rw [ih { lb with column := lb.column + u.width } hci hlen hrest hcol']
      show some { lb with column := lb.column + u.width + unitsWidth rest }
        = some { lb with column := lb.column + unitsWidth (u :: rest) }
      rw [show unitsWidth (u :: rest) = u.width + unitsWidth rest from rfl, Nat.add_assoc]
    · rw [if_neg hw0]
      have hz : u.width = 0 := by omega
      rw [show lb.appendToPreviousCell u.codePoint = some lb from by
        unfold LineBuilder.appendToPreviousCell
        rw [if_neg (by omega)]]
      show processUnits cid rest lb
        = some { lb with column := lb.column + unitsWidth (u :: rest) }
      rw [ih lb hci hlen hrest (by omega)]
      show some { lb with column := lb.column + unitsWidth rest }
        = some { lb with column := lb.column + unitsWidth (u :: rest) }
      rw [show unitsWidth (u :: rest) = u.width + unitsWidth rest from rfl, hz, Nat.zero_add]

/-- If a code point is either non-printable or rendered at width at most 1,
every unit it classifies to has width at most 1 (tab stops and control
placeholders always expand to width-1 units). -/
theorem DetermineRenderedCodePoint_width_le_one (cm : CharMetrics) (c : Char) (col : Nat)
    (config : Config) (us : List RenderedCodePoint)
    (hc : cm.isPrint c = true → cm.runeWidth c ≤ 1)
    (h : DetermineRenderedCodePoint cm c col config = some us) :
    ∀ u ∈ us, u.width ≤ 1 := by
  intro u hu
  unfold DetermineRenderedCodePoint at h
  by_cases hp : cm.isPrint c = true
  · simp only [hp, Bool.not_true, Bool.false_eq_true, if_false] at h
    injection h with h'
    subst h'
    have := List.mem_singleton.mp hu
    rw [this]
    exact hc hp
  · have hp' : cm.isPrint c = false := by
      revert hp
      cases cm.isPrint c <;> simp
    simp only [hp', Bool.not_false, if_true] at h
    by_cases ht : c = '\t'
    · rw [if_pos ht] at h
      by_cases htw : config.tabWidth = 0
      · simp [htw] at h
      · simp only [if_neg htw] at h
        injection h with h'
        subst h'
        have := List.eq_of_mem_replicate hu
        rw [this]
    · rw [if_neg ht] at h
      by_cases hcc : c ≠ '\n' ∧ (c.toNat < 32 ∨ c.toNat = 127)
      · rw [if_pos hcc] at h
        injection h with h'
        subst h'
        simp only [List.mem_map] at hu
        obtain ⟨x, _, rfl⟩ := hu
        exact Nat.le_refl 1
      · rw [if_neg hcc] at h
        injection h with h'
        subst h'
        have := List.mem_singleton.mp hu
        rw [this]

/-- The column tracked by `colAfter` never decreases. -/
theorem colAfter_ge (cm : CharMetrics) (config : Config) :
    ∀ (str : List Char) (col f : Nat), colAfter cm config col str = some f → col ≤ f := by
  intro str
  induction str with
  | nil =>
    intro col f h
    injection h with h'
    omega
  | cons c rest ih =>
    intro col f h
    unfold colAfter at h
    cases hd : DetermineRenderedCodePoint cm c col config with
    | none =>
      rw [hd] at h
      exact absurd h (by simp)
    | some us =>
      simp only [hd] at h
      have := ih (col + unitsWidth us) f h
      omega

/-- A whole string whose units all have width at most 1, appended from a
fresh cell index while the final column still does not exceed the start
column, leaves the line completely untouched and only advances the column
counter to `colAfter`'s value. -/
theorem AppendChars_below_startColumn (cm : CharMetrics) (cid : ThemeComponentId) :
    ∀ (str : List Char) (lb : LineBuilder) (finalCol : Nat),
      lb.cellIndex = 0 → 0 < lb.line.cells.length →
      (∀ c ∈ str, cm.isPrint c = true → cm.runeWidth c ≤ 1) →
      colAfter cm lb.config lb.column str = some finalCol →
      finalCol ≤ lb.startColumn →
      AppendChars cm cid str lb = some { lb with column := finalCol } := by
  intro str
  induction str with
  | nil =>
    intro lb f hci hlen _ hcA hf
    unfold colAfter at hcA
    injection hcA with h'
    subst h'
    show some lb = _
    rfl
  | cons c rest ih =>
    intro lb f hci hlen hw hcA hf
    unfold colAfter at hcA
    cases hd : DetermineRenderedCodePoint cm c lb.column lb.config with
    | none =>
      rw [hd] at hcA
      exact absurd hcA (by simp)
    | some us =>
      simp only [hd] at hcA
      have hge := colAfter_ge cm lb.config rest (lb.column + unitsWidth us) f hcA
      have husw : ∀ u ∈ us, u.width ≤ 1 :=
        DetermineRenderedCodePoint_width_le_one cm c lb.column lb.config us
          (hw c (List.mem_cons_self c rest)) hd
      unfold AppendChars
      simp only [hd]
      rw [processUnits_below_startColumn cid us lb hci hlen husw (by omega)]
      show AppendChars cm cid rest { lb with column := lb.column + unitsWidth us }
        = some { lb with column := f }
      exact ih { lb with column := lb.column + unitsWidth us } f hci hlen
        (fun c hc => hw c (List.mem_cons_of_mem _ hc)) hcA hf

/-- C5 amended: so long as every code point of the string renders at width
at most 1, content positioned left of the configured start column is never
written to any cell — the line is untouched — while the column counter
still advances past it by each unit's width.  (The universally quantified
claim including width-2 code points fails: the blanking step that follows a
wide code point is applied regardless of the start column, see the
counterexample.) -/
theorem claim_C5_skip_left_of_start_column :
    ∀ (cm : CharMetrics) (config : Config) (cid : ThemeComponentId) (line : Line)
      (startColumn : Nat) (str : List Char) (finalCol : Nat),
      0 < line.cells.length →
      (∀ c ∈ str, cm.isPrint c = true → cm.runeWidth c ≤ 1) →
      colAfter cm config 1 str = some finalCol →
      finalCol ≤ startColumn →
      (NewLineBuilder line config startColumn).AppendWithStyle cm cid str
        = some { line := line, cellIndex := 0, column := finalCol,
                 startColumn := startColumn, config := config } := by
  intro cm config cid line sc str f hlen hw hcA hf
  exact AppendChars_below_startColumn cm cid str (NewLineBuilder line config sc) f rfl hlen hw
    hcA hf

/-- Witness for C5 amended: `"x"` then a tab, starting at column 1 with
start column 20, advance the column to 9 (tab stop width 8) without
touching the two-cell line. -/
theorem claim_C5_skip_left_of_start_column_witness :
    (0 < (⟨List.replicate 2 spaceCell⟩ : Line).cells.length
     ∧ (∀ c ∈ ['x', '\t'], cmTest.isPrint c = true → cmTest.runeWidth c ≤ 1)
     ∧ colAfter cmTest cfg8 1 ['x', '\t'] = some 9
     ∧ 9 ≤ 20)
    ∧ (NewLineBuilder ⟨List.replicate 2 spaceCell⟩ cfg8 20).AppendWithStyle cmTest CMP_NONE
        ['x', '\t']
        = some { line := ⟨List.replicate 2 spaceCell⟩, cellIndex := 0, column := 9,
                 startColumn := 20, config := cfg8 } :=
  ⟨⟨by decide, by decide, by decide, by decide⟩,
   claim_C5_skip_left_of_start_column cmTest cfg8 CMP_NONE ⟨List.replicate 2 spaceCell⟩ 20
     ['x', '\t'] 9 (by decide) (by decide) (by decide) (by decide)⟩

/-- Go unsigned subtraction agrees with `Nat` subtraction when it does not
underflow. -/
theorem goSub_of_le (a b : Nat) (hba : b ≤ a) (ha : a < goUintSize) : goSub a b = a - b := by
  unfold goSub
  rw [Nat.mod_eq_of_lt (show b < goUintSize by omega)]
  rw [show a + (goUintSize - b) = goUintSize + (a - b) from by
    have hW : 0 < goUintSize := by
      unfold goUintSize
      positivity
    omega]
  rw [Nat.add_mod_left]
  exact Nat.mod_eq_of_lt (by omega)

/-- Go unsigned subtraction wraps around to `2 ^ 64 + a - b` when it
underflows. -/
theorem goSub_of_gt (a b : Nat) (hab : a < b) (hb : b < goUintSize) :
    goSub a b = goUintSize + a - b := by
  unfold goSub
  rw [Nat.mod_eq_of_lt hb]
  rw [show a + (goUintSize - b) = goUintSize + a - b from by omega]
  exact Nat.mod_eq_of_lt (by omega)

/-- Setting a list element to the value already stored there is the
identity. -/
theorem list_set_self {α : Type} : ∀ (l : List α) (i : Nat) (x : α),
    l[i]? = some x → l.set i x = l := by
  intro l
  induction l with
  | nil =>
    intro i x h
    simp at h
  | cons a t ih =>
    intro i x h
    cases i with
    | zero =>
      simp only [List.getElem?_cons_zero, Option.some.injEq] at h
      subst h
      rfl
    | succ n =>
      simp only [List.getElem?_cons_succ] at h
      simp [List.set, ih n x h]

/-- When the cell index already exceeds the line length, every unit hits
the break check, so an append writes nothing at all (this is the state
`setHeader` reaches after its unsigned subtraction wraps around). -/
theorem AppendChars_break (cm : CharMetrics) (cid : ThemeComponentId) :
    ∀ (s : List Char) (lb : LineBuilder),
      lb.line.cells.length < lb.cellIndex → 0 < lb.config.tabWidth →
      AppendChars cm cid s lb = some lb := by
  intro s
  induction s with
  | nil =>
    intro lb _ _
    rfl
  | cons c rest ih =>
    intro lb h htab
    unfold AppendChars
    obtain ⟨us, hus⟩ := DetermineRenderedCodePoint_some cm c lb.column lb.config htab
    simp only [hus]
    rw [show processUnits cid us lb = some lb from by
      cases us with
      | nil => rfl
      | cons u r =>
        unfold processUnits
        rw [if_pos h]]
    show AppendChars cm cid rest lb = some lb
    exact ih lb h htab

/-- Appending a run of printable width-1 code points from a column at or
beyond the start column writes them into consecutive cells: the resulting
line is `writeChars`, and the cell index and column both advance by the
run's length. -/
theorem AppendChars_width1_run (cm : CharMetrics) (cid : ThemeComponentId) :
    ∀ (s : List Char) (lb : LineBuilder),
      (∀ c ∈ s, cm.isPrint c = true ∧ cm.runeWidth c = 1) →
      lb.startColumn ≤ lb.column →
      lb.cellIndex + s.length ≤ lb.line.cells.length →
      AppendChars cm cid s lb
        = some { lb with line := ⟨writeChars cid s lb.cellIndex lb.line.cells⟩,
                         cellIndex := lb.cellIndex + s.length,
                         column := lb.column + s.length } := by
  intro s
  induction s with
  | nil =>
    intro lb _ _ _
    show some lb = _
    rfl
  | cons c rest ih =>
    intro lb hs hcol hlen
    have hc := hs c (List.mem_cons_self c rest)
    have hlt : lb.cellIndex < lb.line.cells.length := by
      simp only [List.length_cons] at hlen
      omega
    unfold AppendChars
    rw [show DetermineRenderedCodePoint cm c lb.column lb.config = some [⟨1, c⟩] from by
      unfold DetermineRenderedCodePoint
      simp only [hc.1, Bool.not_true, Bool.false_eq_true, if_false, hc.2]]
    simp only []
    rw [show processUnits cid [⟨1, c⟩] lb
          = some { lb with
              line := ⟨lb.line.cells.set lb.cellIndex
                { codePoints := [c],
                  style := { componentId := cid,
                             attr := (lb.line.cells.getD lb.cellIndex emptyCell).style.attr,
                             acs_char := 0 } }⟩,
              cellIndex := lb.cellIndex + 1,
              column := lb.column + 1 } from by
      unfold processUnits LineBuilder.setCellAndAdvanceIndex
      rw [if_neg (show ¬ lb.cellIndex > lb.line.cells.length by omega)]
      simp only [show ¬ ((1 : Nat) > 1) by omega, if_false, show (1 : Nat) > 0 by omega,
                 if_true, if_pos hlt, if_pos hcol, List.getElem?_eq_getElem hlt,
                 List.getD_eq_getElem lb.line.cells emptyCell hlt]
      rfl]
    show AppendChars cm cid rest
      { lb with
          line := ⟨lb.line.cells.set lb.cellIndex
            { codePoints := [c],
              style := { componentId := cid,
                         attr := (lb.line.cells.getD lb.cellIndex emptyCell).style.attr,
                         acs_char := 0 } }⟩,
          cellIndex := lb.cellIndex + 1,
          column := lb.column + 1 } = _
    rw [ih { lb with
              line := ⟨lb.line.cells.set lb.cellIndex
                { codePoints := [c],
                  style := { componentId := cid,
                             attr := (lb.line.cells.getD lb.cellIndex emptyCell).style.attr,
                             acs_char := 0 } }⟩,
              cellIndex := lb.cellIndex + 1,
              column := lb.column + 1 }
          (fun x hx => hs x (List.mem_cons_of_mem _ hx)) (by simpa using by omega)
          (by simp only [List.length_set]; simp only [List.length_cons] at hlen; omega)]
    show some _ = some _
    rw [show writeChars cid (c :: rest) lb.cellIndex lb.line.cells
          = writeChars cid rest (lb.cellIndex + 1)
              (lb.line.cells.set lb.cellIndex
                { codePoints := [c],
                  style := { componentId := cid,
                             attr := (lb.line.cells.getD lb.cellIndex emptyCell).style.attr,
                             acs_char := 0 } }) from rfl]
    simp only [List.length_cons]
    rw [show lb.cellIndex + 1 + rest.length = lb.cellIndex + (rest.length + 1) by omega,
        show lb.column + 1 + rest.length = lb.column + (rest.length + 1) by omega]

/-- On a window of at least 3x3, `SetFooter` reduces to the right-justified
header computation: pad the text, bail out above `cols + 2`, otherwise
append from the unsigned-subtraction cell index. -/
theorem SetFooter_unfold (cm : CharMetrics) (win : Window) (cid : ThemeComponentId)
    (text : List Char) (line : Line)
    (hr : 3 ≤ win.rows) (hc : 3 ≤ win.cols)
    (hline : win.lines[win.rows - 1]? = some line) :
    win.SetFooter cm cid text
      = (if (' ' :: text ++ [' ']).length > win.cols + 2 then some (Except.ok win)
         else
           match (({ line := line,
                     cellIndex := goSub win.cols (2 + (' ' :: text ++ [' ']).length),
                     column := (goSub win.cols (2 + (' ' :: text ++ [' ']).length) + 1) % goUintSize,
                     startColumn := 1, config := win.config } : LineBuilder).AppendWithStyle
                    cm cid (' ' :: text ++ [' '])) with
           | none => none
           | some lb1 =>
             some (Except.ok { win with lines := win.lines.set (win.rows - 1) lb1.line })) := by
  unfold Window.SetFooter
  rw [if_neg (show ¬ win.rows < 1 by omega)]
  unfold Window.setHeader
  rw [if_neg (show ¬ (win.rows < 3 ∨ win.cols < 3) by omega)]
  rw [show win.MkLineBuilder (win.rows - 1) 1
        = some (Except.ok (NewLineBuilder line win.config 1)) from by
    unfold Window.MkLineBuilder
    rw [if_neg (show ¬ win.rows - 1 ≥ win.rows by omega),
        if_neg (show ¬ (1 : Nat) = 0 by omega), hline]]
  rfl

/-- C6 amended: the padded footer `" " + text + " "` is right-justified by
its character count `fl`, but its effective fit threshold is `cols - 2`,
not the window width: for `fl > cols - 2` the call silently writes nothing
and returns no error (above `cols + 2` via the explicit guard, otherwise
because the unsigned cell index `cols - (2 + fl)` wraps around and every
write is skipped); for `fl ≤ cols - 2` the footer is written without
truncation into the cells ending two columns before the right edge of the
bottom row. -/
theorem claim_C6_footer_fit_threshold :
    ∀ (cm : CharMetrics) (win : Window) (cid : ThemeComponentId) (text : List Char)
      (line : Line),
      3 ≤ win.rows → 3 ≤ win.cols →
      win.lines[win.rows - 1]? = some line →
      line.cells.length = win.cols →
      0 < win.config.tabWidth →
      win.cols + 4 < goUintSize →
      (win.cols - 2 < text.length + 2 →
        win.SetFooter cm cid text = some (Except.ok win))
      ∧ (text.length + 2 ≤ win.cols - 2 →
         (∀ c ∈ ' ' :: text ++ [' '], cm.isPrint c = true ∧ cm.runeWidth c = 1) →
         win.SetFooter cm cid text
           = some (Except.ok { win with
               lines := win.lines.set (win.rows - 1)
                 ⟨writeChars cid (' ' :: text ++ [' '])
                    (win.cols - (2 + (text.length + 2))) line.cells⟩ })) := by
  intro cm win cid text line hr hc hline hlen htab hW
  have hpad : (' ' :: text ++ [' ']).length = text.length + 2 := by simp
  constructor
  · intro hbig
    rw [SetFooter_unfold cm win cid text line hr hc hline]
    by_cases hgt : (' ' :: text ++ [' ']).length > win.cols + 2
    · rw [if_pos hgt]
    · rw [if_neg hgt]
      rw [hpad] at hgt
      have hug : goSub win.cols (2 + (' ' :: text ++ [' ']).length)
          = goUintSize + win.cols - (2 + (' ' :: text ++ [' ']).length) := by
        apply goSub_of_gt
        · rw [hpad]
          omega
        · rw [hpad]
          omega
      rw [show ({ line := line,
                  cellIndex := goSub win.cols (2 + (' ' :: text ++ [' ']).length),
                  column := (goSub win.cols (2 + (' ' :: text ++ [' ']).length) + 1) % goUintSize,
                  startColumn := 1, config := win.config } : LineBuilder).AppendWithStyle
                 cm cid (' ' :: text ++ [' '])
            = some { line := line,
                     cellIndex := goSub win.cols (2 + (' ' :: text ++ [' ']).length),
                     column := (goSub win.cols (2 + (' ' :: text ++ [' ']).length) + 1) % goUintSize,
                     startColumn := 1, config := win.config } from
        AppendChars_break cm cid (' ' :: text ++ [' ']) _
          (by
            show line.cells.length < goSub win.cols (2 + (' ' :: text ++ [' ']).length)
            rw [hug, hpad, hlen]
            omega)
          htab]
      show some (Except.ok { win with lines := win.lines.set (win.rows - 1) line })
        = some (Except.ok win)
      rw [list_set_self win.lines (win.rows - 1) line hline]
  · intro hfit hwall
    rw [SetFooter_unfold cm win cid text line hr hc hline]
    rw [if_neg (show ¬ (' ' :: text ++ [' ']).length > win.cols + 2 by rw [hpad]; omega)]
    have hgoe : goSub win.cols (2 + (' ' :: text ++ [' ']).length)
        = win.cols - (2 + (' ' :: text ++ [' ']).length) := by
      apply goSub_of_le
      · rw [hpad]
        omega
      · omega
    have hcol1 : (goSub win.cols (2 + (' ' :: text ++ [' ']).length) + 1) % goUintSize
        = win.cols - (2 + (' ' :: text ++ [' ']).length) + 1 := by
      rw [hgoe]
      exact Nat.mod_eq_of_lt (by omega)
    rw [hcol1, hgoe]
    rw [show ({ line := line,
                cellIndex := win.cols - (2 + (' ' :: text ++ [' ']).length),
                column := win.cols - (2 + (' ' :: text ++ [' ']).length) + 1,
                startColumn := 1, config := win.config } : LineBuilder).AppendWithStyle
               cm cid (' ' :: text ++ [' '])
          = some { line := ⟨writeChars cid (' ' :: text ++ [' '])
                              (win.cols - (2 + (' ' :: text ++ [' ']).length)) line.cells⟩,
                   cellIndex := win.cols - (2 + (' ' :: text ++ [' ']).length)
                     + (' ' :: text ++ [' ']).length,
                   column := win.cols - (2 + (' ' :: text ++ [' ']).length) + 1
                     + (' ' :: text ++ [' ']).length,
                   startColumn := 1, config := win.config } from
      AppendChars_width1_run cm cid (' ' :: text ++ [' ']) _ hwall
        (by
          show (1 : Nat) ≤ win.cols - (2 + (' ' :: text ++ [' ']).length) + 1
          omega)
        (by
          show win.cols - (2 + (' ' :: text ++ [' ']).length) + (' ' :: text ++ [' ']).length
            ≤ line.cells.length
          rw [hpad, hlen]
          omega)]
    show some (Except.ok _) = some (Except.ok _)
    rw [hpad]

/-- Witness for C6 amended: on a 3x4 window the padded footer `" ab "`
(count 4, above `cols - 2 = 2`) writes nothing; on a 3x8 window the padded
footer `" hi "` (count 4, at most `cols - 2 = 6`) is written ending two
cells before the right edge of the bottom row. -/
theorem claim_C6_footer_fit_threshold_witness :
    (3 ≤ win34.rows ∧ 3 ≤ win34.cols
     ∧ win34.lines[win34.rows - 1]? = some (lineOfSpaces 4)
     ∧ (lineOfSpaces 4).cells.length = win34.cols ∧ 0 < win34.config.tabWidth
     ∧ win34.cols + 4 < goUintSize ∧ win34.cols - 2 < (['a', 'b'] : List Char).length + 2)
    ∧ win34.SetFooter cmTest CMP_NONE ['a', 'b'] = some (Except.ok win34)
    ∧ (3 ≤ win38.rows ∧ 3 ≤ win38.cols
       ∧ win38.lines[win38.rows - 1]? = some (lineOfSpaces 8)
       ∧ (lineOfSpaces 8).cells.length = win38.cols ∧ 0 < win38.config.tabWidth
       ∧ win38.cols + 4 < goUintSize
       ∧ (['h', 'i'] : List Char).length + 2 ≤ win38.cols - 2
       ∧ (∀ c ∈ ' ' :: ['h', 'i'] ++ [' '], cmTest.isPrint c = true ∧ cmTest.runeWidth c = 1))
    ∧ win38.SetFooter cmTest CMP_NONE ['h', 'i']
        = some (Except.ok { win38 with
            lines := win38.lines.set (win38.rows - 1)
              ⟨writeChars CMP_NONE (' ' :: ['h', 'i'] ++ [' '])
                 (win38.cols - (2 + ((['h', 'i'] : List Char).length + 2)))
                 (lineOfSpaces 8).cells⟩ }) :=
  ⟨⟨by decide, by decide, by decide, by decide, by decide, by decide, by decide⟩,
   (claim_C6_footer_fit_threshold cmTest win34 CMP_NONE ['a', 'b'] (lineOfSpaces 4)
      (by decide) (by decide) (by decide) (by decide) (by decide) (by decide)).1 (by decide),
   ⟨by decide, by decide, by decide, by decide, by decide, by decide, by decide, by decide⟩,
   (claim_C6_footer_fit_threshold cmTest win38 CMP_NONE ['h', 'i'] (lineOfSpaces 8)
      (by decide) (by decide) (by decide) (by decide) (by decide) (by decide)).2
     (by decide) (by decide)⟩

end Grv
